import Mathlib

/-!
# Verification of `LearningRateControl.py`

A shallow embedding of the learning-rate-control module: an epoch-indexed
history store (`LRCState`), the store operations (`getLearningRateForEpoch`,
`setLearningRateForEpoch`, `setEpochError`, `getErrorKey`,
`getEpochErrorValue`, `save`, `load`) and the three rate policies
(`calcConstant`, `calcNewbobRelative`, `calcNewbobAbs`).

Modelling conventions:
* Python `float` values are modelled as `ℚ`; epoch numbers as `ℤ`.
* Python `dict` is modelled as an insertion-ordered association list with
  distinct keys; `d[k] = v` replaces in place or appends, `d.update(e)`
  folds that over `e`, mirroring CPython semantics.
* Python exceptions (`assert`, `KeyError`, `ZeroDivisionError`, I/O errors)
  are modelled with `Except Err`; float division raises
  `ZeroDivisionError` on a zero divisor, exactly as in Python.
* `learningRate` is `Option ℚ` because the code explicitly tests
  `if learningRate is None` after reading it from a record.
-/

namespace LRC

/-- Python-style association list lookup: first entry with the given key. -/
def alistGet {α β : Type} [DecidableEq α] : List (α × β) → α → Option β
  | [], _ => none
  | (k', v) :: t, k => if k' = k then some v else alistGet t k

/-- `d[k] = v`: replace the first entry with key `k` in place, else append. -/
def alistSet {α β : Type} [DecidableEq α] : List (α × β) → α → β → List (α × β)
  | [], k, v => [(k, v)]
  | (k', v') :: t, k, v =>
    if k' = k then (k, v) :: t else (k', v') :: alistSet t k v

/-- `d.update(e)`: set every entry of `e` into `d`, left to right. -/
def alistUpdate {α β : Type} [DecidableEq α] (d e : List (α × β)) : List (α × β) :=
  e.foldl (fun acc kv => alistSet acc kv.1 kv.2) d

/-- `k in d`. -/
def alistContains {α β : Type} [DecidableEq α] (d : List (α × β)) (k : α) : Bool :=
  (alistGet d k).isSome

/-- `min(d.keys())`, `none` on an empty dict. -/
def minKey? {α β : Type} [LinearOrder α] (d : List (α × β)) : Option α :=
  match d.map Prod.fst with
  | [] => none
  | k :: ks => some (ks.foldl min k)

/-- Truthiness of an optional string in Python: `None` and `""` are falsy. -/
def truthyStr : Option String → Bool
  | none => false
  | some s => s ≠ ""

/-- Decidable equality of `Except` results, for evaluating the model on
concrete inputs. -/
instance exceptDecEq {ε α : Type} [DecidableEq ε] [DecidableEq α] :
    DecidableEq (Except ε α)
  | Except.ok a, Except.ok b =>
    match decEq a b with
    | isTrue h => isTrue (by rw [h])
    | isFalse h => isFalse (fun hh => h (Except.ok.inj hh))
  | Except.ok _, Except.error _ => isFalse (fun hh => Except.noConfusion hh)
  | Except.error _, Except.ok _ => isFalse (fun hh => Except.noConfusion hh)
  | Except.error e, Except.error f =>
    match decEq e f with
    | isTrue h => isTrue (by rw [h])
    | isFalse h => isFalse (fun hh => h (Except.error.inj hh))

/-- The exceptions the module can raise. -/
inductive Err : Type where
  | assertionError (msg : String)
  | keyError
  | zeroDivisionError
  | ioError
deriving DecidableEq, Repr

/-- `LearningRateControl.EpochData`: a learning rate and a metric-name →
error-value map for one epoch. -/
structure EpochData : Type where
  learningRate : Option ℚ
  error : List (String × ℚ)
deriving DecidableEq, Repr

/-- The epoch → record mapping (`self.epochData`). -/
abbrev Store := List (ℤ × EpochData)

/-- The state of a `LearningRateControl` object, together with the content of
its persistence file. `fileContents` models the file system: `none` means
the file does not exist. -/
structure LRCState : Type where
  epochData : Store
  initialLearningRate : ℚ
  errorMeasureKey : Option String
  filename : Option String
  fileContents : Option Store
deriving DecidableEq, Repr

/-- `LearningRateControl.__init__` when no persisted file pre-exists: the
store is seeded with epoch 1 at the initial learning rate, empty error map. -/
def freshState (initialLearningRate : ℚ) (errorMeasureKey filename : Option String) :
    LRCState :=
  { epochData := [(1, EpochData.mk (some initialLearningRate) [])]
    initialLearningRate := initialLearningRate
    errorMeasureKey := errorMeasureKey
    filename := filename
    fileContents := none }

/-- `LearningRateControl.getLastEpoch`: the greatest epoch key strictly below
`epoch`, or `none`. -/
def getLastEpoch (st : LRCState) (epoch : ℤ) : Option ℤ :=
  match (st.epochData.map Prod.fst).filter (fun e => decide (e < epoch)) with
  | [] => none
  | k :: ks => some (ks.foldl max k)

/-- `LearningRateControl.getErrorKey`. -/
def getErrorKey (st : LRCState) : Option String :=
  if truthyStr st.errorMeasureKey then st.errorMeasureKey
  else
    match minKey? st.epochData with
    | none => none
    | some m =>
      match alistGet st.epochData m with
      | none => none
      | some first_epoch =>
        if first_epoch.error.isEmpty then none
        else if first_epoch.error.length = 1 then minKey? first_epoch.error
        else if alistContains first_epoch.error "dev_score" then some "dev_score"
        else if alistContains first_epoch.error "train_score" then some "train_score"
        else minKey? first_epoch.error

/-- The error-key resolution rule as the specification words it, for the
refinement claim about `getErrorKey`: (a) the explicitly configured key if
provided (a non-empty string, per the code's truthiness test); (b) `none` if
the store is empty; (c) `none` if the earliest epoch's error map is empty;
(d) the single metric name if exactly one is present; (e) otherwise
`"dev_score"` then `"train_score"` if present; (f) otherwise the
lexicographically smallest metric name. -/
def errorKeySpec (st : LRCState) : Option String :=
  if truthyStr st.errorMeasureKey then st.errorMeasureKey
  else
    match minKey? st.epochData with
    | none => none
    | some m =>
      match alistGet st.epochData m with
      | none => none
      | some first_epoch =>
        match first_epoch.error with
        | [] => none
        | [(k, _)] => some k
        | _ :: _ :: _ =>
          if alistContains first_epoch.error "dev_score" then some "dev_score"
          else if alistContains first_epoch.error "train_score" then some "train_score"
          else minKey? first_epoch.error

/-- `LearningRateControl.getEpochErrorValue`: `assert key` (truthiness),
`self.epochData[epoch].error` (may raise `KeyError`), `assert key in error`,
then the lookup. -/
def getEpochErrorValue (st : LRCState) (epoch : ℤ) : Except Err ℚ :=
  match getErrorKey st with
  | none => Except.error (Err.assertionError "no error key")
  | some k =>
    if k = "" then Except.error (Err.assertionError "no error key")
    else
      match alistGet st.epochData epoch with
      | none => Except.error Err.keyError
      | some ed =>
        match alistGet ed.error k with
        | none => Except.error (Err.assertionError "error key not in epoch error")
        | some v => Except.ok v

/-- `LearningRateControl.setLearningRateForEpoch`: update the rate in place,
preserving the error map, or create a record with an empty error map. -/
def setLearningRateForEpoch (st : LRCState) (epoch : ℤ) (learningRate : ℚ) : LRCState :=
  match alistGet st.epochData epoch with
  | some ed =>
    { st with epochData :=
        alistSet st.epochData epoch { ed with learningRate := some learningRate } }
  | none =>
    { st with epochData :=
        alistSet st.epochData epoch (EpochData.mk (some learningRate) []) }

/-- `LearningRateControl.getLearningRateForEpoch`, parameterised by the
policy's `calcLearningRateForEpoch`. -/
def getLearningRateForEpoch (calcRate : LRCState → ℤ → Except Err ℚ)
    (st : LRCState) (epoch : ℤ) : Except Err (Option ℚ × LRCState) :=
  if epoch < 1 then Except.error (Err.assertionError "epoch is below 1")
  else
    match alistGet st.epochData epoch with
    | some ed => Except.ok (ed.learningRate, st)
    | none =>
      match calcRate st epoch with
      | Except.error e => Except.error e
      | Except.ok learningRate =>
        Except.ok (some learningRate, setLearningRateForEpoch st epoch learningRate)

/-- `LearningRateControl.setEpochError`: assert the epoch has a record, then
merge (`dict.update`) the given map into the record's error map. -/
def setEpochError (st : LRCState) (epoch : ℤ) (error : List (String × ℚ)) :
    Except Err LRCState :=
  match alistGet st.epochData epoch with
  | none => Except.error (Err.assertionError "getLearningRateForEpoch was not called")
  | some ed =>
    Except.ok
      { st with epochData :=
          alistSet st.epochData epoch { ed with error := alistUpdate ed.error error } }

/-- `LearningRateControl.save`. Modelled from the spec: the serialization
helper `betterRepr` (in `Util`, outside the verified sources) is treated as
an opaque reversible text encoder, so the file content is modelled as the
mapping itself. No-op when no filename is configured. -/
def save (st : LRCState) : LRCState :=
  if truthyStr st.filename then { st with fileContents := some st.epochData } else st

/-- `LearningRateControl.load`. Modelled from the spec: `eval` over the file
text (via `Util`, outside the verified sources) is treated as the opaque
reversible decoder matching `save`'s encoder. Raises when the filename is
not configured or the file does not exist; otherwise replaces the in-memory
mapping with the decoded file content. -/
def load (st : LRCState) : Except Err LRCState :=
  if truthyStr st.filename then
    match st.fileContents with
    | none => Except.error Err.ioError
    | some d => Except.ok { st with epochData := d }
  else Except.error Err.ioError

/-- `ConstantLearningRate.calcLearningRateForEpoch`. -/
def calcConstant (st : LRCState) (_epoch : ℤ) : Except Err ℚ :=
  Except.ok st.initialLearningRate

/-- `NewbobRelative.calcLearningRateForEpoch`. The Python line
`if oldError is None or newError is None: return learningRate` is
unreachable (`getEpochErrorValue` asserts instead of returning `None`),
so it has no counterpart here; the division raises `ZeroDivisionError`
when `newError = 0`, as in Python. -/
def calcNewbobRelative (relativeErrorThreshold learningRateDecayFactor : ℚ)
    (st : LRCState) (epoch : ℤ) : Except Err ℚ :=
  match getLastEpoch st epoch with
  | none => Except.ok st.initialLearningRate
  | some lastEpoch =>
    match alistGet st.epochData lastEpoch with
    | none => Except.error Err.keyError
    | some ed =>
      match ed.learningRate with
      | none => Except.ok st.initialLearningRate
      | some learningRate =>
        match getLastEpoch st lastEpoch with
        | none => Except.ok learningRate
        | some last2Epoch =>
          match getEpochErrorValue st last2Epoch with
          | Except.error e => Except.error e
          | Except.ok oldError =>
            match getEpochErrorValue st lastEpoch with
            | Except.error e => Except.error e
            | Except.ok newError =>
              if newError = 0 then Except.error Err.zeroDivisionError
              else
                let relativeError := (newError - oldError) / abs newError
                Except.ok (if relativeError > relativeErrorThreshold
                           then learningRate * learningRateDecayFactor
                           else learningRate)

/-- `NewbobAbs.calcLearningRateForEpoch`. -/
def calcNewbobAbs (errorThreshold learningRateDecayFactor : ℚ)
    (st : LRCState) (epoch : ℤ) : Except Err ℚ :=
  match getLastEpoch st epoch with
  | none => Except.ok st.initialLearningRate
  | some lastEpoch =>
    match alistGet st.epochData lastEpoch with
    | none => Except.error Err.keyError
    | some ed =>
      match ed.learningRate with
      | none => Except.ok st.initialLearningRate
      | some learningRate =>
        match getLastEpoch st lastEpoch with
        | none => Except.ok learningRate
        | some last2Epoch =>
          match getEpochErrorValue st last2Epoch with
          | Except.error e => Except.error e
          | Except.ok oldError =>
            match getEpochErrorValue st lastEpoch with
            | Except.error e => Except.error e
            | Except.ok newError =>
              let errorDiff := newError - oldError
              Except.ok (if errorDiff > errorThreshold
                         then learningRate * learningRateDecayFactor
                         else learningRate)

/-- The caller-facing operations of the store, for stating invariants over
operation sequences. -/
inductive Op : Type where
  | getRate (epoch : ℤ)
  | setRate (epoch : ℤ) (rate : ℚ)
  | setError (epoch : ℤ) (error : List (String × ℚ))
  | save
  | load
deriving DecidableEq, Repr

/-- Execute one operation; an operation that raises leaves the state
unchanged (every raising path in the code raises before mutating). -/
def execOp (calcRate : LRCState → ℤ → Except Err ℚ) (st : LRCState) : Op → LRCState
  | Op.getRate epoch =>
    match getLearningRateForEpoch calcRate st epoch with
    | Except.ok (_, st') => st'
    | Except.error _ => st
  | Op.setRate epoch rate => setLearningRateForEpoch st epoch rate
  | Op.setError epoch e =>
    match setEpochError st epoch e with
    | Except.ok st' => st'
    | Except.error _ => st
  | Op.save => save st
  | Op.load =>
    match load st with
    | Except.ok st' => st'
    | Except.error _ => st

/-- Execute a sequence of operations. -/
def runOps (calcRate : LRCState → ℤ → Except Err ℚ) (st : LRCState) : List Op → LRCState
  | [] => st
  | op :: ops => runOps calcRate (execOp calcRate st op) ops

/-- A history whose most recent completed epoch has error value `0`: epoch 1
has error 1, epoch 2 has error 0. -/
def c1Store : LRCState :=
  ⟨[(1, EpochData.mk (some 1) [("dev_score", 1)]),
    (2, EpochData.mk (some 1) [("dev_score", 0)])], 1, none, none, none⟩

/-- A history with two completed epochs at rate `rate`, with error 10 at the
earlier epoch and error 9 at the later one. -/
def c2Store (rate : ℚ) : LRCState :=
  ⟨[(1, EpochData.mk (some rate) [("dev_score", 10)]),
    (2, EpochData.mk (some rate) [("dev_score", 9)])], rate, none, none, none⟩

/-- A history where the earliest epoch's error map holds both `"train_score"`
and `"dev_score"` (inserted in that order). -/
def c5Store : LRCState :=
  ⟨[(1, EpochData.mk (some 1) [("train_score", 10), ("dev_score", 9)])],
   1, none, none, none⟩

/-- A history whose epoch-1 record has a two-metric error map, for exercising
the merge behaviour of `setEpochError`. -/
def c6Store : LRCState :=
  ⟨[(1, EpochData.mk (some 1) [("a", 1), ("b", 2)])], 1, none, none, none⟩

/-- A history with a defined error at epoch 1 but an empty error map at
epoch 2, so the error value of the most recent epoch is undefined. -/
def c8Store : LRCState :=
  ⟨[(1, EpochData.mk (some 1) [("dev_score", 10)]),
    (2, EpochData.mk (some 1) [])], 1, none, none, none⟩

/-- A populated store with a configured persistence path and multi-metric
error maps. -/
def c9Store : LRCState :=
  ⟨[(1, EpochData.mk (some 1) [("dev_score", 1), ("train_score", 2)]),
    (2, EpochData.mk (some 2) [("dev_score", 3), ("train_score", 4)])],
   1, none, some "newbob.data", none⟩

/-- A history whose most recent completed epoch (epoch 2) has error value
`0` while epoch 1 has a defined error value, so the relative-error division
has a zero divisor. -/
def c10Store : LRCState :=
  ⟨[(1, EpochData.mk (some 1) [("dev_score", 1)]),
    (2, EpochData.mk (some 1) [("dev_score", 0)])], 1, none, none, none⟩

/-! ## Helper lemmas about the dictionary model -/

theorem alistGet_alistSet_self {α β : Type} [DecidableEq α]
    (d : List (α × β)) (k : α) (v : β) : alistGet (alistSet d k v) k = some v := by
  induction d with
  | nil => simp [alistSet, alistGet]
  | cons hd t ih =>
    obtain ⟨k', v'⟩ := hd
    by_cases h : k' = k
    · simp [alistSet, alistGet, h]
    · simp [alistSet, alistGet, h, ih]

theorem alistGet_alistSet_ne {α β : Type} [DecidableEq α]
    (d : List (α × β)) (k k' : α) (v : β) (h : k' ≠ k) :
    alistGet (alistSet d k v) k' = alistGet d k' := by
  induction d with
  | nil => simp [alistSet, alistGet, Ne.symm h]
  | cons hd t ih =>
    obtain ⟨k0, v0⟩ := hd
    by_cases h0 : k0 = k
    · subst h0
      simp [alistSet, alistGet, Ne.symm h]
    · simp [alistSet, alistGet, h0, ih]

theorem alistContains_alistSet {α β : Type} [DecidableEq α]
    (d : List (α × β)) (k k' : α) (v : β) (h : alistContains d k' = true) :
    alistContains (alistSet d k v) k' = true := by
  by_cases hk : k' = k
  · subst hk
    simp [alistContains, alistGet_alistSet_self]
  · simpa [alistContains, alistGet_alistSet_ne d k k' v hk] using h

theorem alistSet_of_get_none {α β : Type} [DecidableEq α]
    (d : List (α × β)) (k : α) (v : β) (h : alistGet d k = none) :
    alistSet d k v = d ++ [(k, v)] := by
  induction d with
  | nil => simp [alistSet]
  | cons hd t ih =>
    obtain ⟨k', v'⟩ := hd
    by_cases hk : k' = k
    · simp [alistGet, hk] at h
    · simp only [alistGet, hk, if_false] at h
      simp [alistSet, hk, ih h]

theorem alistGet_eq_none_of_not_mem {α β : Type} [DecidableEq α]
    (d : List (α × β)) (k : α) (h : k ∉ d.map Prod.fst) : alistGet d k = none := by
  induction d with
  | nil => rfl
  | cons hd t ih =>
    obtain ⟨k', v'⟩ := hd
    simp only [List.map_cons, List.mem_cons, not_or] at h
    simp [alistGet, Ne.symm h.1, ih h.2]

theorem alistGet_alistUpdate_of_none {α β : Type} [DecidableEq α]
    (d e : List (α × β)) (k : α) (h : alistGet e k = none) :
    alistGet (alistUpdate d e) k = alistGet d k := by
  induction e generalizing d with
  | nil => rfl
  | cons hd t ih =>
    obtain ⟨k0, v0⟩ := hd
    by_cases hk : k0 = k
    · simp [alistGet, hk] at h
    · simp only [alistGet, hk, if_false] at h
      show alistGet (alistUpdate (alistSet d k0 v0) t) k = alistGet d k
      rw [ih (alistSet d k0 v0) h, alistGet_alistSet_ne d k0 k v0 (Ne.symm hk)]

theorem alistGet_alistUpdate_of_some {α β : Type} [DecidableEq α]
    (d e : List (α × β)) (k : α) (v : β)
    (hnd : (e.map Prod.fst).Nodup) (h : alistGet e k = some v) :
    alistGet (alistUpdate d e) k = some v := by
  induction e generalizing d with
  | nil => simp [alistGet] at h
  | cons hd t ih =>
    obtain ⟨k0, v0⟩ := hd
    simp only [List.map_cons, List.nodup_cons] at hnd
    by_cases hk : k0 = k
    · subst hk
      have h' : v0 = v := by simpa [alistGet] using h
      subst h'
      show alistGet (alistUpdate (alistSet d k0 v0) t) k0 = some v0
      rw [alistGet_alistUpdate_of_none _ _ _ (alistGet_eq_none_of_not_mem t k0 hnd.1),
        alistGet_alistSet_self]
    · simp only [alistGet, hk, if_false] at h
      show alistGet (alistUpdate (alistSet d k0 v0) t) k = some v
      exact ih (alistSet d k0 v0) hnd.2 h

/-! ## Helper lemmas about the store operations -/

theorem setLearningRateForEpoch_contains (st : LRCState) (epoch : ℤ) (r : ℚ)
    (k : ℤ) (h : alistContains st.epochData k = true) :
    alistContains (setLearningRateForEpoch st epoch r).epochData k = true := by
  unfold setLearningRateForEpoch
  cases alistGet st.epochData epoch <;>
    simpa using alistContains_alistSet st.epochData epoch k _ h

theorem save_epochData (st : LRCState) : (save st).epochData = st.epochData := by
  unfold save
  split <;> rfl

theorem getLearningRateForEpoch_state (calcRate : LRCState → ℤ → Except Err ℚ)
    (st : LRCState) (epoch : ℤ) (lr : Option ℚ) (st' : LRCState)
    (h : getLearningRateForEpoch calcRate st epoch = Except.ok (lr, st')) :
    st' = st ∨ ∃ r, st' = setLearningRateForEpoch st epoch r := by
  unfold getLearningRateForEpoch at h
  split at h
  · cases h
  · cases hg : alistGet st.epochData epoch with
    | some ed =>
      rw [hg] at h
      left
      exact (Prod.mk.injEq _ _ _ _ ▸ Except.ok.inj h).2.symm
    | none =>
      rw [hg] at h
      cases hc : calcRate st epoch with
      | error e => rw [hc] at h; cases h
      | ok r =>
        rw [hc] at h
        right
        exact ⟨r, (Prod.mk.injEq _ _ _ _ ▸ Except.ok.inj h).2.symm⟩

theorem execOp_contains (calcRate : LRCState → ℤ → Except Err ℚ) (st : LRCState)
    (o : Op) (ho : o ≠ Op.load) (k : ℤ) (h : alistContains st.epochData k = true) :
    alistContains (execOp calcRate st o).epochData k = true := by
  cases o with
  | getRate epoch =>
    show alistContains
      (match getLearningRateForEpoch calcRate st epoch with
       | Except.ok (_, st') => st'
       | Except.error _ => st).epochData k = true
    cases hres : getLearningRateForEpoch calcRate st epoch with
    | error e => simpa using h
    | ok p =>
      obtain ⟨lr, st'⟩ := p
      rcases getLearningRateForEpoch_state calcRate st epoch lr st' hres with h1 | ⟨r, h1⟩
      · simpa [h1] using h
      · simpa [h1] using setLearningRateForEpoch_contains st epoch r k h
  | setRate epoch r => exact setLearningRateForEpoch_contains st epoch r k h
  | setError epoch e =>
    show alistContains
      (match setEpochError st epoch e with
       | Except.ok st' => st'
       | Except.error _ => st).epochData k = true
    unfold setEpochError
    cases hg : alistGet st.epochData epoch with
    | none => simpa using h
    | some ed => simpa using alistContains_alistSet st.epochData epoch k _ h
  | save => simpa [execOp, save_epochData] using h
  | load => exact absurd rfl ho

theorem runOps_contains (calcRate : LRCState → ℤ → Except Err ℚ)
    (ops : List Op) (st : LRCState) (hld : Op.load ∉ ops)
    (k : ℤ) (h : alistContains st.epochData k = true) :
    alistContains (runOps calcRate st ops).epochData k = true := by
  induction ops generalizing st with
  | nil => exact h
  | cons o t ih =>
    simp only [List.mem_cons, not_or] at hld
    exact ih (execOp calcRate st o) hld.2
      (execOp_contains calcRate st o (fun hh => hld.1 hh.symm) k h)

/-! ## Claim theorems -/

/-- C10: in the NewbobRelative rate computation, when the most recent epoch
before the requested one has error value 0 (and the second-previous epoch has
a defined error value), the relative-error division has a zero divisor and
the computation fails with `ZeroDivisionError` instead of returning a rate. -/
theorem newbobRelative_zero_division (thr decay : ℚ) (st : LRCState)
    (epoch lastEpoch last2Epoch : ℤ) (ed : EpochData) (rate oldErr : ℚ)
    (h1 : getLastEpoch st epoch = some lastEpoch)
    (h2 : alistGet st.epochData lastEpoch = some ed)
    (h3 : ed.learningRate = some rate)
    (h4 : getLastEpoch st lastEpoch = some last2Epoch)
    (h5 : getEpochErrorValue st last2Epoch = Except.ok oldErr)
    (h6 : getEpochErrorValue st lastEpoch = Except.ok 0) :
    calcNewbobRelative thr decay st epoch = Except.error Err.zeroDivisionError := by
  simp [calcNewbobRelative, h1, h2, h3, h4, h5, h6]

theorem newbobRelative_zero_division_witness :
    calcNewbobRelative (-1/100) (1/2) c10Store 3 = Except.error Err.zeroDivisionError :=
  newbobRelative_zero_division (-1/100) (1/2) c10Store 3 2 1
    (EpochData.mk (some 1) [("dev_score", 0)]) 1 1
    (by decide) (by decide) rfl (by decide) (by decide) (by decide)

/-- C1 (amended): under the claim's hypotheses and the additional hypothesis
`newErr ≠ 0` (forced by the zero-divisor counterexample), NewbobRelative
returns `rate * decayFactor` when `(newErr - oldErr) / abs newErr` is
strictly greater than the threshold and `rate` unchanged otherwise. -/
theorem newbobRelative_formula (thr decay : ℚ) (st : LRCState)
    (epoch lastEpoch last2Epoch : ℤ) (ed : EpochData) (rate oldErr newErr : ℚ)
    (_hN : alistGet st.epochData epoch = none)
    (h1 : getLastEpoch st epoch = some lastEpoch)
    (h2 : alistGet st.epochData lastEpoch = some ed)
    (h3 : ed.learningRate = some rate)
    (h4 : getLastEpoch st lastEpoch = some last2Epoch)
    (h5 : getEpochErrorValue st last2Epoch = Except.ok oldErr)
    (h6 : getEpochErrorValue st lastEpoch = Except.ok newErr)
    (hz : newErr ≠ 0) :
    calcNewbobRelative thr decay st epoch =
      Except.ok (if (newErr - oldErr) / abs newErr > thr then rate * decay else rate) := by
  simp [calcNewbobRelative, h1, h2, h3, h4, h5, h6, hz]

theorem newbobRelative_formula_witness :
    calcNewbobRelative (-1/100) (1/2)
      ⟨[(1, EpochData.mk (some 4) [("dev_score", 10)]),
        (2, EpochData.mk (some 4) [("dev_score", 10)])], 4, none, none, none⟩ 3 =
      Except.ok (if ((10 : ℚ) - 10) / abs (10 : ℚ) > -1/100 then 4 * (1/2) else 4) :=
  newbobRelative_formula (-1/100) (1/2) _ 3 2 1
    (EpochData.mk (some 4) [("dev_score", 10)]) 4 10 10
    (by decide) (by decide) (by decide) rfl (by decide) (by decide) (by decide) (by decide)

/-- C1 counterexample: at a history where the most recent error value is 0,
`calcNewbobRelative` returns no rate at all (it fails with a zero-division
error), contradicting the claim that it returns either the decayed or the
unchanged rate. -/
theorem newbobRelative_formula_counterexample :
    calcNewbobRelative (-1/100) (1/2) c1Store 3 = Except.error Err.zeroDivisionError
  ∧ calcNewbobRelative (-1/100) (1/2) c1Store 3 ≠ Except.ok (1 * (1/2))
  ∧ calcNewbobRelative (-1/100) (1/2) c1Store 3 ≠ Except.ok 1 := by
  refine ⟨by decide, by decide, by decide⟩


/-- C2 counterexample: with oldErr 10 at epoch 1 and newErr 9 at epoch 2,
threshold -0.01 and decay factor 0.5, `calcNewbobRelative` for the next epoch
returns the previous rate (1) unchanged, not the claimed decayed rate
1 * 0.5: the relative change -1/9 is not strictly greater than -0.01, so the
decay branch is not taken. -/
theorem newbobRelative_ten_to_nine_counterexample :
    calcNewbobRelative (-1/100) (1/2) (c2Store 1) 3 = Except.ok 1
  ∧ calcNewbobRelative (-1/100) (1/2) (c2Store 1) 3 ≠ Except.ok (1 * (1/2)) := by
  norm_num [calcNewbobRelative, c2Store, getLastEpoch, getEpochErrorValue, getErrorKey,
    minKey?, alistGet, alistContains, truthyStr,
    show ("dev_score" : String) ≠ "" by decide]

/-- C2 (amended): with oldErr 10 at the earlier epoch and newErr 9 at the
later one, threshold -0.01 and decay factor 0.5, NewbobRelative leaves the
previous rate unchanged (the relative change (9 - 10) / abs 9 = -1/9 is not
strictly greater than -0.01, so no decay occurs). -/
theorem newbobRelative_ten_to_nine_no_decay (rate : ℚ) :
    calcNewbobRelative (-1/100) (1/2) (c2Store rate) 3 = Except.ok rate := by
  norm_num [calcNewbobRelative, c2Store, getLastEpoch, getEpochErrorValue, getErrorKey,
    minKey?, alistGet, alistContains, truthyStr,
    show ("dev_score" : String) ≠ "" by decide]

/-- C3: on a freshly constructed store (no persisted file), for both
NewbobRelative and NewbobAbs: `getLearningRateForEpoch 1` returns the
configured initial learning rate with the store unchanged, and
`getLearningRateForEpoch 2` returns the rate stored for epoch 1 (the initial
rate), storing it for epoch 2; both succeed with `Except.ok` even though
every error map is empty, so no error comparison is performed. -/
theorem newbob_bootstrap_epochs (init thr decay thrA decayA : ℚ)
    (emk fn : Option String) :
    getLearningRateForEpoch (calcNewbobRelative thr decay) (freshState init emk fn) 1 =
      Except.ok (some init, freshState init emk fn)
  ∧ getLearningRateForEpoch (calcNewbobRelative thr decay) (freshState init emk fn) 2 =
      Except.ok (some init,
        { freshState init emk fn with
            epochData := [(1, EpochData.mk (some init) []),
                          (2, EpochData.mk (some init) [])] })
  ∧ getLearningRateForEpoch (calcNewbobAbs thrA decayA) (freshState init emk fn) 1 =
      Except.ok (some init, freshState init emk fn)
  ∧ getLearningRateForEpoch (calcNewbobAbs thrA decayA) (freshState init emk fn) 2 =
      Except.ok (some init,
        { freshState init emk fn with
            epochData := [(1, EpochData.mk (some init) []),
                          (2, EpochData.mk (some init) [])] }) :=
  ⟨rfl, rfl, rfl, rfl⟩

/-- C4: `getLearningRateForEpoch` returns the stored rate and leaves the
store unchanged when the epoch has a record; when it has none, it invokes the
policy computation, appends a new record with that rate and an empty error
map, and returns the rate; and it fails with the precondition assertion when
the epoch is below 1. -/
theorem getLearningRateForEpoch_spec (calcRate : LRCState → ℤ → Except Err ℚ)
    (st : LRCState) (epoch : ℤ) :
    (∀ ed, 1 ≤ epoch → alistGet st.epochData epoch = some ed →
      getLearningRateForEpoch calcRate st epoch = Except.ok (ed.learningRate, st))
  ∧ (∀ r, 1 ≤ epoch → alistGet st.epochData epoch = none →
      calcRate st epoch = Except.ok r →
      getLearningRateForEpoch calcRate st epoch =
        Except.ok (some r,
          { st with epochData := st.epochData ++ [(epoch, EpochData.mk (some r) [])] }))
  ∧ (epoch < 1 →
      getLearningRateForEpoch calcRate st epoch =
        Except.error (Err.assertionError "epoch is below 1")) := by
  refine ⟨?_, ?_, ?_⟩
  · intro ed hge hg
    simp [getLearningRateForEpoch, hg, not_lt.mpr hge]
  · intro r hge hg hc
    simp [getLearningRateForEpoch, hg, hc, not_lt.mpr hge, setLearningRateForEpoch,
      alistSet_of_get_none st.epochData epoch _ hg]
  · intro hlt
    simp [getLearningRateForEpoch, hlt]

theorem getLearningRateForEpoch_spec_witness :
    getLearningRateForEpoch calcConstant (freshState 5 none none) 1 =
      Except.ok (some 5, freshState 5 none none)
  ∧ getLearningRateForEpoch calcConstant (freshState 5 none none) 2 =
      Except.ok (some 5,
        { freshState 5 none none with
            epochData := [(1, EpochData.mk (some 5) []),
                          (2, EpochData.mk (some 5) [])] })
  ∧ getLearningRateForEpoch calcConstant (freshState 5 none none) 0 =
      Except.error (Err.assertionError "epoch is below 1") :=
  ⟨(getLearningRateForEpoch_spec calcConstant (freshState 5 none none) 1).1
      (EpochData.mk (some 5) []) (by decide) (by decide),
   (getLearningRateForEpoch_spec calcConstant (freshState 5 none none) 2).2.1
      5 (by decide) (by decide) (by decide),
   (getLearningRateForEpoch_spec calcConstant (freshState 5 none none) 0).2.2
      (by decide)⟩


/-- C5: `getErrorKey` coincides with the specification's resolution order
(`errorKeySpec`) on every store state; in particular, whenever the key is not
explicitly configured and the earliest epoch's error map holds at least two
metrics among which `"dev_score"` and `"train_score"`, it returns
`"dev_score"`. -/
theorem getErrorKey_spec :
    (∀ st : LRCState, getErrorKey st = errorKeySpec st)
  ∧ (∀ (st : LRCState) (m : ℤ) (fe : EpochData),
      truthyStr st.errorMeasureKey = false →
      minKey? st.epochData = some m →
      alistGet st.epochData m = some fe →
      alistContains fe.error "dev_score" = true →
      alistContains fe.error "train_score" = true →
      2 ≤ fe.error.length →
      getErrorKey st = some "dev_score") := by
  constructor
  · intro st
    by_cases h : truthyStr st.errorMeasureKey
    · simp [getErrorKey, errorKeySpec, h]
    · cases hm : minKey? st.epochData with
      | none => simp [getErrorKey, errorKeySpec, h, hm]
      | some m =>
        cases hg : alistGet st.epochData m with
        | none => simp [getErrorKey, errorKeySpec, h, hm, hg]
        | some fe =>
          obtain ⟨lr, err⟩ := fe
          cases err with
          | nil => simp [getErrorKey, errorKeySpec, h, hm, hg]
          | cons a t =>
            cases t with
            | nil =>
              obtain ⟨k, v⟩ := a
              simp only [getErrorKey, errorKeySpec, h, Bool.false_eq_true, if_false, hm, hg]
              simp [minKey?]
            | cons b l =>
              have hlen : ¬ ((a :: b :: l).length = 1) := by simp
              simp [getErrorKey, errorKeySpec, h, hm, hg, hlen]
  · intro st m fe hkey hmin hget hdev htrain hlen
    have h0 : fe.error.isEmpty = false := by
      cases he : fe.error with
      | nil => rw [he] at hlen; simp at hlen
      | cons a t => rfl
    have h1 : ¬ (fe.error.length = 1) := by omega
    unfold getErrorKey
    simp [hkey, hmin, hget, h0, h1, hdev]

theorem getErrorKey_spec_witness :
    getErrorKey c5Store = some "dev_score" :=
  getErrorKey_spec.2 c5Store 1
    (EpochData.mk (some 1) [("train_score", 10), ("dev_score", 9)])
    rfl (by decide) (by decide) (by decide) (by decide) (by decide)

/-- C6: when the epoch has a record, `setEpochError` merges the given map
into the record's error map — keys present in the update overwrite or are
added, keys absent from the update keep their old values — and when the
epoch has no record, it fails with the precondition assertion (producing no
new state). -/
theorem setEpochError_spec (st : LRCState) (epoch : ℤ) (e : List (String × ℚ)) :
    (∀ ed, alistGet st.epochData epoch = some ed → (e.map Prod.fst).Nodup →
      setEpochError st epoch e =
        Except.ok
          { st with
            epochData := alistSet st.epochData epoch
                (EpochData.mk ed.learningRate (alistUpdate ed.error e)) }
      ∧ (∀ k v, alistGet e k = some v → alistGet (alistUpdate ed.error e) k = some v)
      ∧ (∀ k, alistGet e k = none → alistGet (alistUpdate ed.error e) k = alistGet ed.error k))
  ∧ (alistGet st.epochData epoch = none →
      setEpochError st epoch e =
        Except.error (Err.assertionError "getLearningRateForEpoch was not called")) := by
  constructor
  · intro ed hg hnd
    refine ⟨by simp [setEpochError, hg], ?_, ?_⟩
    · intro k v h
      exact alistGet_alistUpdate_of_some ed.error e k v hnd h
    · intro k h
      exact alistGet_alistUpdate_of_none ed.error e k h
  · intro hg
    simp [setEpochError, hg]

theorem setEpochError_spec_witness :
    setEpochError c6Store 1 [("b", 5), ("c", 6)] =
      Except.ok { c6Store with
        epochData := [(1, EpochData.mk (some 1) [("a", 1), ("b", 5), ("c", 6)])] }
  ∧ setEpochError c6Store 2 [("b", 5)] =
      Except.error (Err.assertionError "getLearningRateForEpoch was not called") :=
  ⟨((setEpochError_spec c6Store 1 [("b", 5), ("c", 6)]).1
      (EpochData.mk (some 1) [("a", 1), ("b", 2)]) (by decide) (by decide)).1,
   (setEpochError_spec c6Store 2 [("b", 5)]).2 (by decide)⟩


/-- C7 (amended): construction (with no pre-existing persisted file) seeds
the store with exactly the epoch-1 record holding the initial learning rate
and an empty error map; and along every sequence of getRate, setRate,
setError and save operations — load excluded, since load replaces the store
with the persisted mapping and can drop keys — every key present is
preserved and epoch 1 remains present. -/
theorem store_invariants_no_load (calcRate : LRCState → ℤ → Except Err ℚ)
    (init : ℚ) (emk fn : Option String) (ops : List Op) (st : LRCState)
    (hld : Op.load ∉ ops) :
    (freshState init emk fn).epochData = [(1, EpochData.mk (some init) [])]
  ∧ (∀ k, alistContains st.epochData k = true →
      alistContains (runOps calcRate st ops).epochData k = true)
  ∧ alistContains (runOps calcRate (freshState init emk fn) ops).epochData 1 = true := by
  refine ⟨rfl, ?_, ?_⟩
  · intro k hk
    exact runOps_contains calcRate ops st hld k hk
  · exact runOps_contains calcRate ops (freshState init emk fn) hld 1 rfl

theorem store_invariants_no_load_witness :
    Op.load ∉ [Op.getRate 2, Op.setError 2 [("dev_score", 3)], Op.save]
  ∧ alistContains (runOps calcConstant (freshState 1 none (some "f"))
      [Op.getRate 2, Op.setError 2 [("dev_score", 3)], Op.save]).epochData 1 = true :=
  ⟨by decide,
   (store_invariants_no_load calcConstant 1 none (some "f")
      [Op.getRate 2, Op.setError 2 [("dev_score", 3)], Op.save]
      (freshState 1 none (some "f")) (by decide)).2.2⟩

/-- C7 counterexample: a load operation removes a key that was present. In
the sequence save, setRate 3, load — all succeeding — epoch 3 is present
after setRate but absent after load, refuting the claim that no epoch key
that was ever present is ever removed across sequences that include load. -/
theorem store_invariants_counterexample :
    alistContains (runOps calcConstant (freshState 1 none (some "f"))
      [Op.save, Op.setRate 3 1]).epochData 3 = true
  ∧ alistContains (runOps calcConstant (freshState 1 none (some "f"))
      [Op.save, Op.setRate 3 1, Op.load]).epochData 3 = false := by
  refine ⟨by decide, by decide⟩

/-- C8 (amended): when the resolved error value of `prev2` or of `prev` is
undefined (the error key is absent from that epoch's error map, or no key
resolves), `calcNewbobRelative` fails by propagating the error raised by
`getEpochErrorValue` — it does not return the previous rate unchanged; the
code's `None` check after the two lookups is unreachable. -/
theorem newbobRelative_missing_error_fails (thr decay : ℚ) (st : LRCState)
    (epoch lastEpoch last2Epoch : ℤ) (ed : EpochData) (rate : ℚ)
    (h1 : getLastEpoch st epoch = some lastEpoch)
    (h2 : alistGet st.epochData lastEpoch = some ed)
    (h3 : ed.learningRate = some rate)
    (h4 : getLastEpoch st lastEpoch = some last2Epoch) :
    (∀ e, getEpochErrorValue st last2Epoch = Except.error e →
      calcNewbobRelative thr decay st epoch = Except.error e)
  ∧ (∀ e oldErr, getEpochErrorValue st last2Epoch = Except.ok oldErr →
      getEpochErrorValue st lastEpoch = Except.error e →
      calcNewbobRelative thr decay st epoch = Except.error e) := by
  constructor
  · intro e he
    simp [calcNewbobRelative, h1, h2, h3, h4, he]
  · intro e oldErr ho he
    simp [calcNewbobRelative, h1, h2, h3, h4, ho, he]

theorem newbobRelative_missing_error_fails_witness :
    calcNewbobRelative (-1/100) (1/2) c8Store 3 =
      Except.error (Err.assertionError "error key not in epoch error") :=
  (newbobRelative_missing_error_fails (-1/100) (1/2) c8Store 3 2 1
      (EpochData.mk (some 1) []) 1
      (by decide) (by decide) rfl (by decide)).2
    (Err.assertionError "error key not in epoch error") 10 (by decide) (by decide)

/-- C8 counterexample: at a history where the most recent epoch's error map
is empty (its error value is undefined), `calcNewbobRelative` fails with an
assertion error instead of returning the previous rate 1 unchanged. -/
theorem newbobRelative_missing_error_counterexample :
    calcNewbobRelative (-1/100) (1/2) c8Store 3 =
      Except.error (Err.assertionError "error key not in epoch error")
  ∧ calcNewbobRelative (-1/100) (1/2) c8Store 3 ≠ Except.ok 1 := by
  refine ⟨by decide, by decide⟩

/-- C9: on any store with a configured (truthy) persistence path, save
followed by load succeeds and reproduces an epoch → record mapping identical
to the one saved (the opaque text codec is modelled as reversible, per the
specification). -/
theorem save_load_roundtrip (st : LRCState) (h : truthyStr st.filename = true) :
    load (save st) = Except.ok (save st) ∧ (save st).epochData = st.epochData := by
  unfold save load
  simp [h]

theorem save_load_roundtrip_witness :
    truthyStr c9Store.filename = true
  ∧ load (save c9Store) = Except.ok (save c9Store)
  ∧ (save c9Store).epochData = c9Store.epochData :=
  ⟨by decide, save_load_roundtrip c9Store (by decide)⟩

end LRC
